import Mathlib

/-!
Verification of the PetShop inventory dashboard's core calculations, shallowly
embedded from the TypeScript source.

Part 1 embeds the landed-cost allocator of `src/components/Warehouse.tsx`
(`handleAddToReceiptList`, the `calculatedItems` memo) over exact rationals.
Part 2 embeds the text-generation wrappers of `src/services/geminiService.ts`,
with the outcome of the external API call made explicit as an `Except` value.
Part 3 embeds `handleMarkReceiptPaid` of `src/App.tsx`.
Part 4 embeds the date-range comparator `getDateRanges` of
`src/components/Dashboard.tsx` and the week filter of
`src/components/SupplierSettlements.tsx`.  Timestamps are integer seconds of
local time since the Unix epoch; per the specification, dates are local
calendar dates with no DST or timezone ambiguity, so JavaScript `Date`
operations are modelled on a uniform 86400-second-day timeline with the
proleptic Gregorian calendar.
-/

set_option maxHeartbeats 4000000
set_option maxRecDepth 100000

namespace PetShop

/-- A receipt line item, mirroring the `ReceiptItem` record built in
`handleAddToReceiptList` (the `product` reference is dropped; `originalDbPrice`
stands for the product's stored purchase price). -/
structure ReceiptItem where
  qty : Int
  supplierUnitPrice : Rat
  originalDbPrice : Rat
  supplierTotalCost : Rat
  landedUnitCost : Rat
  landedTotalCost : Rat
deriving DecidableEq, Repr

/-- The `newItem` literal of `handleAddToReceiptList`: `supplierTotalCost` is
`qty * price`, and `landedUnitCost` / `landedTotalCost` are placeholders
(updated later by the calculator). -/
def mkReceiptItem (qty : Int) (price dbPrice : Rat) : ReceiptItem :=
  ⟨qty, price, dbPrice, qty * price, price, qty * price⟩

/-- `handleAddToReceiptList` in `Warehouse.tsx`: `parseInt`/`parseFloat`
results are modelled as `Option` values (`none` for NaN).  The line is
rejected — the list is returned unchanged — when either parse fails or the
quantity is not positive. -/
def handleAddToReceiptList (items : List ReceiptItem)
    (qty : Option Int) (price : Option Rat) (dbPrice : Rat) : List ReceiptItem :=
  match qty, price with
  | some q, some p => if q ≤ 0 then items else items ++ [mkReceiptItem q p dbPrice]
  | _, _ => items

/-- `totalSupplier` in the `calculatedItems` memo:
`receiptItems.reduce((acc, item) => acc + item.qty * item.supplierUnitPrice, 0)`. -/
def totalSupplier (items : List ReceiptItem) : Rat :=
  items.foldl (fun acc it => acc + it.qty * it.supplierUnitPrice) 0

/-- The per-line body of the `receiptItems.map` in the `calculatedItems` memo.
Extra costs are distributed by value share: the share is
`itemSupplierTotal / totalSupplier` when `totalSupplier > 0` and `0`
otherwise, and the landed unit cost divides by `qty` only when `qty > 0`. -/
def lineCalc (totalSup extra : Rat) (item : ReceiptItem) : ReceiptItem :=
  let itemSupplierTotal : Rat := item.qty * item.supplierUnitPrice
  let allocatedExtra : Rat :=
    extra * (if totalSup > 0 then itemSupplierTotal / totalSup else 0)
  let landedTotal : Rat := itemSupplierTotal + allocatedExtra
  let landedUnit : Rat := if item.qty > 0 then landedTotal / item.qty else 0
  ⟨item.qty, item.supplierUnitPrice, item.originalDbPrice,
    itemSupplierTotal, landedUnit, landedTotal⟩

/-- The `calculatedItems` list of the memo in `Warehouse.tsx`. -/
def calculatedItems (items : List ReceiptItem) (extra : Rat) : List ReceiptItem :=
  items.map (lineCalc (totalSupplier items) extra)

/-- The `totalLandedValue` of the memo. -/
def totalLandedValue (items : List ReceiptItem) (extra : Rat) : Rat :=
  (calculatedItems items extra).foldl (fun acc it => acc + it.landedTotalCost) 0

theorem foldl_add_eq (l : List ReceiptItem) (f : ReceiptItem → Rat) (a : Rat) :
    l.foldl (fun acc it => acc + f it) a = a + (l.map f).sum := by
  induction l generalizing a with
  | nil => simp
  | cons x xs ih => simp [ih]; ring

theorem totalSupplier_eq_sum (items : List ReceiptItem) :
    totalSupplier items
      = (items.map (fun it => (it.qty : Rat) * it.supplierUnitPrice)).sum := by
  simpa [totalSupplier] using
    foldl_add_eq items (fun it => (it.qty : Rat) * it.supplierUnitPrice) 0

theorem sum_map_add (l : List ReceiptItem) (f g : ReceiptItem → Rat) :
    (l.map fun it => f it + g it).sum = (l.map f).sum + (l.map g).sum := by
  induction l with
  | nil => simp
  | cons x xs ih => simp [ih]; ring

theorem sum_map_mul_const (l : List ReceiptItem) (b : Rat) (f : ReceiptItem → Rat) :
    (l.map fun it => f it * b).sum = (l.map f).sum * b := by
  induction l with
  | nil => simp
  | cons x xs ih => simp [ih]; ring

/-- Batches are only ever built through `handleAddToReceiptList`, so every
line of a receipt batch has positive quantity. -/
theorem handleAddToReceiptList_posQty (items : List ReceiptItem)
    (qty : Option Int) (price : Option Rat) (dbPrice : Rat)
    (h : ∀ it ∈ items, 0 < it.qty) :
    ∀ it ∈ handleAddToReceiptList items qty price dbPrice, 0 < it.qty := by
  intro it hit
  rcases qty with _ | q <;> rcases price with _ | p <;>
    simp only [handleAddToReceiptList] at hit
  · exact h it hit
  · exact h it hit
  · exact h it hit
  · by_cases hq : q ≤ 0
    · rw [if_pos hq] at hit
      exact h it hit
    · rw [if_neg hq] at hit
      rcases List.mem_append.mp hit with hmem | hmem
      · exact h it hmem
      · simp only [List.mem_singleton] at hmem
        subst hmem
        simp [mkReceiptItem]
        omega

theorem lineCalc_landedTotal (totalSup extra : Rat) (it : ReceiptItem) :
    (lineCalc totalSup extra it).landedTotalCost
      = it.qty * it.supplierUnitPrice
        + extra * (if totalSup > 0 then (it.qty * it.supplierUnitPrice) / totalSup else 0) :=
  rfl

theorem lineCalc_landedUnit (totalSup extra : Rat) (it : ReceiptItem) :
    (lineCalc totalSup extra it).landedUnitCost
      = if it.qty > 0 then (lineCalc totalSup extra it).landedTotalCost / it.qty else 0 :=
  rfl

theorem lineCalc_supplierTotal (totalSup extra : Rat) (it : ReceiptItem) :
    (lineCalc totalSup extra it).supplierTotalCost = it.qty * it.supplierUnitPrice :=
  rfl

/-- C1: the allocator computes each line's landed total as the supplier total
plus the allocated extra, where the allocated extra follows the value-share
formula `extra * (lineSupplierTotal / totalSupplier)` when the batch's total
supplier value is positive — not merely nonzero — and is zero otherwise; the
landed unit cost divides the landed total by the quantity for lines of
positive quantity; and adding a line with non-positive quantity leaves the
list unchanged. -/
theorem C1_theorem (items : List ReceiptItem) (extra : Rat) (it : ReceiptItem)
    (q : Int) (p dbp : Rat) (hq : q ≤ 0) (hqty : 0 < it.qty) :
    calculatedItems items extra = items.map (lineCalc (totalSupplier items) extra) ∧
    (lineCalc (totalSupplier items) extra it).landedTotalCost
      = it.qty * it.supplierUnitPrice
        + extra * (if totalSupplier items > 0
            then (it.qty * it.supplierUnitPrice) / totalSupplier items else 0) ∧
    (lineCalc (totalSupplier items) extra it).landedUnitCost
      = ((lineCalc (totalSupplier items) extra it).supplierTotalCost
          + ((lineCalc (totalSupplier items) extra it).landedTotalCost
              - (lineCalc (totalSupplier items) extra it).supplierTotalCost)) / it.qty ∧
    handleAddToReceiptList items (some q) (some p) dbp = items := by
  refine ⟨rfl, lineCalc_landedTotal _ _ _, ?_, ?_⟩
  · rw [lineCalc_landedUnit, if_pos (by exact_mod_cast hqty : it.qty > 0)]
    ring_nf
  · simp [handleAddToReceiptList, hq]

/-- C1 witness at a concrete input. -/
theorem C1_witness :
    calculatedItems [mkReceiptItem 10 5 0] 30
        = [mkReceiptItem 10 5 0].map (lineCalc (totalSupplier [mkReceiptItem 10 5 0]) 30) ∧
    (lineCalc (totalSupplier [mkReceiptItem 10 5 0]) 30 (mkReceiptItem 10 5 0)).landedTotalCost
      = (mkReceiptItem 10 5 0).qty * (mkReceiptItem 10 5 0).supplierUnitPrice
        + 30 * (if totalSupplier [mkReceiptItem 10 5 0] > 0
            then ((mkReceiptItem 10 5 0).qty * (mkReceiptItem 10 5 0).supplierUnitPrice)
                / totalSupplier [mkReceiptItem 10 5 0] else 0) ∧
    (lineCalc (totalSupplier [mkReceiptItem 10 5 0]) 30 (mkReceiptItem 10 5 0)).landedUnitCost
      = ((lineCalc (totalSupplier [mkReceiptItem 10 5 0]) 30 (mkReceiptItem 10 5 0)).supplierTotalCost
          + ((lineCalc (totalSupplier [mkReceiptItem 10 5 0]) 30 (mkReceiptItem 10 5 0)).landedTotalCost
              - (lineCalc (totalSupplier [mkReceiptItem 10 5 0]) 30
                  (mkReceiptItem 10 5 0)).supplierTotalCost))
          / (mkReceiptItem 10 5 0).qty ∧
    handleAddToReceiptList [mkReceiptItem 10 5 0] (some 0) (some 1) 0
        = [mkReceiptItem 10 5 0] :=
  C1_theorem [mkReceiptItem 10 5 0] 30 (mkReceiptItem 10 5 0) 0 1 0
    (by decide) (by decide)

/-- C1 counterexample: for a batch whose total supplier value is negative —
hence nonzero — the code allocates zero, while the claim's formula
`extraCost * (lineSupplierTotal / sum)` yields the full extra cost. -/
theorem C1_counterexample :
    totalSupplier [mkReceiptItem 1 (-10) 0] ≠ 0 ∧
    (calculatedItems [mkReceiptItem 1 (-10) 0] 30).map
        (fun it => it.landedTotalCost - it.supplierTotalCost) = [0] ∧
    (30 : Rat) * ((1 * (-10)) / totalSupplier [mkReceiptItem 1 (-10) 0]) = 30 ∧
    (0 : Rat) ≠ 30 := by
  refine ⟨?_, ?_, ?_, ?_⟩ <;>
    norm_num [totalSupplier, mkReceiptItem, calculatedItems, lineCalc]

/-- C2: for a receipt batch (all quantities positive, as enforced by
`handleAddToReceiptList`) with positive total supplier value, the allocated
extras sum to the input extra cost and the landed unit costs times quantities
sum to the total supplier value plus the extra cost, exactly. -/
theorem C2_theorem (items : List ReceiptItem) (extra : Rat)
    (hq : ∀ it ∈ items, 0 < it.qty) (hpos : 0 < totalSupplier items) :
    ((calculatedItems items extra).map
        (fun it => it.landedTotalCost - it.supplierTotalCost)).sum = extra ∧
    ((calculatedItems items extra).map
        (fun it => it.landedUnitCost * (it.qty : Rat))).sum = totalSupplier items + extra := by
  have hT : totalSupplier items ≠ 0 := ne_of_gt hpos
  have halloc :
      ((calculatedItems items extra).map
          (fun it => it.landedTotalCost - it.supplierTotalCost)).sum = extra := by
    have h1 : (calculatedItems items extra).map
          (fun it => it.landedTotalCost - it.supplierTotalCost)
        = items.map (fun it =>
            ((it.qty : Rat) * it.supplierUnitPrice) * (extra / totalSupplier items)) := by
      simp only [calculatedItems, List.map_map]
      refine List.map_congr_left ?_
      intro it _
      simp only [Function.comp_apply, lineCalc_landedTotal, lineCalc_supplierTotal,
        if_pos hpos]
      field_simp
      ring
    rw [h1, sum_map_mul_const, ← totalSupplier_eq_sum]
    field_simp
  refine ⟨halloc, ?_⟩
  have h2 : (calculatedItems items extra).map (fun it => it.landedUnitCost * (it.qty : Rat))
      = (calculatedItems items extra).map (fun it => it.landedTotalCost) := by
    simp only [calculatedItems, List.map_map]
    refine List.map_congr_left ?_
    intro it hmem
    have hq' : (0 : Int) < it.qty := hq it hmem
    have hqR : ((it.qty : Rat)) ≠ 0 := by
      exact_mod_cast ne_of_gt hq'
    simp only [Function.comp_apply, lineCalc_landedUnit, if_pos hq']
    show (lineCalc (totalSupplier items) extra it).landedTotalCost / (it.qty : Rat)
        * ((lineCalc (totalSupplier items) extra it).qty : Rat) = _
    have hsame : ((lineCalc (totalSupplier items) extra it).qty : Rat) = (it.qty : Rat) := rfl
    rw [hsame, div_mul_cancel₀ _ hqR]
  have h3 : (calculatedItems items extra).map (fun it => it.landedTotalCost)
      = (calculatedItems items extra).map (fun it =>
          it.supplierTotalCost + (it.landedTotalCost - it.supplierTotalCost)) := by
    refine List.map_congr_left ?_
    intro it _
    ring
  have h4 : ((calculatedItems items extra).map (fun it => it.supplierTotalCost)).sum
      = totalSupplier items := by
    have : (calculatedItems items extra).map (fun it => it.supplierTotalCost)
        = items.map (fun it => (it.qty : Rat) * it.supplierUnitPrice) := by
      simp only [calculatedItems, List.map_map]
      refine List.map_congr_left ?_
      intro it _
      exact lineCalc_supplierTotal _ _ _
    rw [this, ← totalSupplier_eq_sum]
  rw [h2, h3, sum_map_add, h4, halloc]

/-- C2 witness at the concrete two-line batch. -/
theorem C2_witness :
    (∀ it ∈ [mkReceiptItem 10 5 0, mkReceiptItem 5 10 0], 0 < it.qty) ∧
    0 < totalSupplier [mkReceiptItem 10 5 0, mkReceiptItem 5 10 0] ∧
    ((calculatedItems [mkReceiptItem 10 5 0, mkReceiptItem 5 10 0] 30).map
        (fun it => it.landedTotalCost - it.supplierTotalCost)).sum = 30 ∧
    ((calculatedItems [mkReceiptItem 10 5 0, mkReceiptItem 5 10 0] 30).map
        (fun it => it.landedUnitCost * (it.qty : Rat))).sum
      = totalSupplier [mkReceiptItem 10 5 0, mkReceiptItem 5 10 0] + 30 := by
  have h := C2_theorem [mkReceiptItem 10 5 0, mkReceiptItem 5 10 0] 30
    (by decide) (by norm_num [totalSupplier, mkReceiptItem])
  exact ⟨by decide, by norm_num [totalSupplier, mkReceiptItem], h.1, h.2⟩

/-- C3: when the batch's total supplier value is zero, the guard selects the
zero branch, so no line's extra allocation involves the division by the sum:
every line's landed total equals its supplier total (allocated extra is
defined to be zero). -/
theorem C3_theorem (items : List ReceiptItem) (extra : Rat)
    (hz : totalSupplier items = 0) :
    (calculatedItems items extra).map (fun it => it.landedTotalCost - it.supplierTotalCost)
        = List.replicate items.length (0 : Rat) ∧
    ∀ it ∈ items, lineCalc (totalSupplier items) extra it
        = ⟨it.qty, it.supplierUnitPrice, it.originalDbPrice,
            it.qty * it.supplierUnitPrice,
            (if it.qty > 0 then (it.qty * it.supplierUnitPrice) / it.qty else 0),
            it.qty * it.supplierUnitPrice⟩ := by
  have hng : ¬ totalSupplier items > 0 := by rw [hz]; exact lt_irrefl 0
  constructor
  · rw [List.eq_replicate_iff]
    constructor
    · simp [calculatedItems]
    · intro b hb
      simp only [calculatedItems, List.map_map, List.mem_map] at hb
      obtain ⟨it, _, hbit⟩ := hb
      rw [← hbit]
      simp [Function.comp_apply, lineCalc_landedTotal, lineCalc_supplierTotal, if_neg hng]
  · intro it _
    simp only [lineCalc, if_neg hng]
    simp

/-- C3 witness: a batch with zero total supplier value. -/
theorem C3_witness :
    totalSupplier [mkReceiptItem 2 0 0] = 0 ∧
    (calculatedItems [mkReceiptItem 2 0 0] 30).map
        (fun it => it.landedTotalCost - it.supplierTotalCost)
      = List.replicate (List.length [mkReceiptItem 2 0 0]) (0 : Rat) :=
  ⟨by norm_num [totalSupplier, mkReceiptItem],
    (C3_theorem [mkReceiptItem 2 0 0] 30 (by norm_num [totalSupplier, mkReceiptItem])).1⟩

/-- C4 counterexample: on the spec's own example batch
`[(qty 10, price 5), (qty 5, price 10)]` with extra cost 30 the code
distributes by value share (50/100 each), allocating 15 to each line with
landed unit costs 6.5 and 13 — not 20/10 with landed units 7 and 12 as the
claim states. -/
theorem C4_counterexample :
    totalSupplier [mkReceiptItem 10 5 0, mkReceiptItem 5 10 0] = 100 ∧
    (calculatedItems [mkReceiptItem 10 5 0, mkReceiptItem 5 10 0] 30).map
        (fun it => it.landedTotalCost - it.supplierTotalCost) = [15, 15] ∧
    (calculatedItems [mkReceiptItem 10 5 0, mkReceiptItem 5 10 0] 30).map
        (fun it => it.landedUnitCost) = [13 / 2, 13] ∧
    ¬ ((calculatedItems [mkReceiptItem 10 5 0, mkReceiptItem 5 10 0] 30).map
        (fun it => it.landedTotalCost - it.supplierTotalCost) = [20, 10]) := by
  refine ⟨?_, ?_, ?_, ?_⟩ <;>
    norm_num [totalSupplier, mkReceiptItem, calculatedItems, lineCalc]

/-- C4 (amended): on the example batch the total supplier value is 100 and the
allocator assigns each line an allocated extra of 15, with landed unit costs
6.5 and 13. -/
theorem C4_theorem :
    totalSupplier [mkReceiptItem 10 5 0, mkReceiptItem 5 10 0] = 100 ∧
    (calculatedItems [mkReceiptItem 10 5 0, mkReceiptItem 5 10 0] 30).map
        (fun it => it.landedTotalCost - it.supplierTotalCost) = [15, 15] ∧
    (calculatedItems [mkReceiptItem 10 5 0, mkReceiptItem 5 10 0] 30).map
        (fun it => it.landedUnitCost) = [13 / 2, 13] := by
  refine ⟨?_, ?_, ?_⟩ <;>
    norm_num [totalSupplier, mkReceiptItem, calculatedItems, lineCalc]

/-- C9 counterexample: a line with positive quantity in a batch with a
negative-price line alongside a positive total supplier value receives a
negative allocation, making its landed unit cost (-15) strictly smaller than
its supplier unit price (-5), with extra cost 10 ≥ 0 and quantity 1 > 0. -/
theorem C9_counterexample :
    (0 : Int) < 1 ∧ (0 : Rat) ≤ 10 ∧
    (calculatedItems [mkReceiptItem 1 (-5) 0, mkReceiptItem 1 10 0] 10).map
        (fun it => it.landedUnitCost) = [-15, 30] ∧
    ¬ ((-5 : Rat) ≤ -15) := by
  refine ⟨?_, ?_, ?_, ?_⟩ <;>
    norm_num [totalSupplier, mkReceiptItem, calculatedItems, lineCalc]

/-- C9 (amended): for a line with positive quantity and nonnegative supplier
unit price, and a nonnegative extra cost, the landed unit cost is at least the
supplier unit price, with equality exactly when the line's allocated extra is
zero (for any batch total). -/
theorem C9_theorem (totalSup extra : Rat) (it : ReceiptItem)
    (hq : 0 < it.qty) (hp : 0 ≤ it.supplierUnitPrice) (he : 0 ≤ extra) :
    it.supplierUnitPrice ≤ (lineCalc totalSup extra it).landedUnitCost ∧
    ((lineCalc totalSup extra it).landedUnitCost = it.supplierUnitPrice ↔
      (lineCalc totalSup extra it).landedTotalCost
        - (lineCalc totalSup extra it).supplierTotalCost = 0) := by
  have hqR : (0 : Rat) < (it.qty : Rat) := by exact_mod_cast hq
  have hqne : ((it.qty : Rat)) ≠ 0 := ne_of_gt hqR
  have ha : 0 ≤ extra * (if totalSup > 0
      then (it.qty * it.supplierUnitPrice) / totalSup else 0) := by
    split_ifs with hT
    · exact mul_nonneg he (div_nonneg (mul_nonneg (le_of_lt hqR) hp) (le_of_lt hT))
    · simp
  have hunit : (lineCalc totalSup extra it).landedUnitCost
      = it.supplierUnitPrice
        + extra * (if totalSup > 0
            then (it.qty * it.supplierUnitPrice) / totalSup else 0) / it.qty := by
    rw [lineCalc_landedUnit, if_pos (by exact_mod_cast hq : it.qty > 0),
      lineCalc_landedTotal]
    field_simp
    ring
  have hdiff : (lineCalc totalSup extra it).landedTotalCost
      - (lineCalc totalSup extra it).supplierTotalCost
      = extra * (if totalSup > 0
          then (it.qty * it.supplierUnitPrice) / totalSup else 0) := by
    rw [lineCalc_landedTotal, lineCalc_supplierTotal]
    ring
  constructor
  · rw [hunit]
    exact le_add_of_nonneg_right (div_nonneg ha (le_of_lt hqR))
  · rw [hunit, hdiff]
    constructor
    · intro hend
      have : extra * (if totalSup > 0
          then (it.qty * it.supplierUnitPrice) / totalSup else 0) / it.qty = 0 := by
        linarith [hend]
      rcases div_eq_zero_iff.mp this with h0 | h0
      · exact h0
      · exact absurd h0 hqne
    · intro h0
      rw [h0]
      simp

/-- C9 witness at a concrete line. -/
theorem C9_witness :
    (0 : Int) < (mkReceiptItem 10 5 0).qty ∧
    (0 : Rat) ≤ (mkReceiptItem 10 5 0).supplierUnitPrice ∧ (0 : Rat) ≤ 30 ∧
    (mkReceiptItem 10 5 0).supplierUnitPrice
      ≤ (lineCalc 100 30 (mkReceiptItem 10 5 0)).landedUnitCost :=
  ⟨by decide, by norm_num [mkReceiptItem], by norm_num,
    (C9_theorem 100 30 (mkReceiptItem 10 5 0) (by decide)
      (by norm_num [mkReceiptItem]) (by norm_num)).1⟩

/-- The UI language enum of `types.ts`. -/
inductive Language where
  | RU
  | UK
deriving DecidableEq, Repr

/-- An order line item, from `types.ts` (`OrderItem`). -/
structure OrderItem where
  productId : Int
  productName : String
  quantity : Int
  price : Rat
  discount : Option Rat
deriving DecidableEq, Repr

/-- `generateProductDescription` of `geminiService.ts`.  The asynchronous
`ai.models.generateContent` call is shallowly embedded as an explicit
`outcome`: `Except.error` for a thrown exception and `Except.ok` carrying the
optional `response.text`.  `response.text?.trim() || fallback` returns the
fallback both when the text is absent and when it trims to the empty string;
a thrown error is caught and replaced by the fixed error string. -/
def generateProductDescription (productName category : String)
    (targetLang : Language) (outcome : Except String (Option String)) : String :=
  match outcome with
  | Except.ok t =>
      match t with
      | some s => if s.trim = "" then "Description could not be generated." else s.trim
      | none => "Description could not be generated."
  | Except.error _ => "Error generating description. Please check API Key."

/-- `analyzeSalesData` of `geminiService.ts`, embedded the same way. -/
def analyzeSalesData (salesSummary : String)
    (outcome : Except String (Option String)) : String :=
  match outcome with
  | Except.ok t =>
      match t with
      | some s => if s.trim = "" then "Analysis unavailable." else s.trim
      | none => "Analysis unavailable."
  | Except.error _ => "Analysis failed."

/-- `getShippingAdvice` of `geminiService.ts`, embedded the same way. -/
def getShippingAdvice (items : List OrderItem) (lang : Language)
    (outcome : Except String (Option String)) : String :=
  match outcome with
  | Except.ok t =>
      match t with
      | some s => if s.trim = "" then "Advice unavailable." else s.trim
      | none => "Advice unavailable."
  | Except.error _ => "Could not generate shipping advice."

/-- C8: when the underlying API call fails (modelled by an `Except.error`
outcome), each text-generation function returns its fixed fallback string —
the error is caught, never propagated (each embedded function is total and
its error branch is the constant fallback). -/
theorem C8_theorem (productName category salesSummary e : String)
    (targetLang : Language) (items : List OrderItem) :
    generateProductDescription productName category targetLang (Except.error e)
        = "Error generating description. Please check API Key." ∧
    analyzeSalesData salesSummary (Except.error e) = "Analysis failed." ∧
    getShippingAdvice items targetLang (Except.error e)
        = "Could not generate shipping advice." :=
  ⟨rfl, rfl, rfl⟩

/-- A warehouse receipt, with the fields built by `handleFinalizeReceipt` in
`Warehouse.tsx` (`WarehouseReceipt` of `types.ts`). -/
structure WarehouseReceipt where
  id : Int
  supplierId : Int
  supplierName : String
  date : String
  paymentDueDate : String
  totalAmount : Rat
  isPaid : Bool
  itemsCount : Int
  items : List ReceiptItem
deriving DecidableEq, Repr

/-- The update `{ ...r, isPaid: true }` used by `handleMarkReceiptPaid`. -/
def setPaid (r : WarehouseReceipt) : WarehouseReceipt :=
  ⟨r.id, r.supplierId, r.supplierName, r.date, r.paymentDueDate,
    r.totalAmount, true, r.itemsCount, r.items⟩

/-- `handleMarkReceiptPaid` of `App.tsx`:
`warehouseReceipts.map(r => r.id === id ? { ...r, isPaid: true } : r)`. -/
def handleMarkReceiptPaid (receipts : List WarehouseReceipt)
    (id : Int) : List WarehouseReceipt :=
  receipts.map (fun r => if r.id = id then setPaid r else r)

/-- C10: marking a receipt paid preserves the list's length and order; the
entry at each position is unchanged unless its id matches, in which case only
its `isPaid` flag is set to `true` (all other fields are preserved by
`setPaid`); and when no receipt has the id the whole list is unchanged. -/
theorem C10_theorem (receipts : List WarehouseReceipt) (id : Int) :
    (handleMarkReceiptPaid receipts id).length = receipts.length ∧
    (∀ i : Nat, (handleMarkReceiptPaid receipts id).get? i
        = (receipts.get? i).map (fun r => if r.id = id then setPaid r else r)) ∧
    (∀ r : WarehouseReceipt,
      (setPaid r).id = r.id ∧ (setPaid r).supplierId = r.supplierId ∧
      (setPaid r).supplierName = r.supplierName ∧ (setPaid r).date = r.date ∧
      (setPaid r).paymentDueDate = r.paymentDueDate ∧
      (setPaid r).totalAmount = r.totalAmount ∧ (setPaid r).isPaid = true ∧
      (setPaid r).itemsCount = r.itemsCount ∧ (setPaid r).items = r.items) ∧
    ((∀ r ∈ receipts, r.id ≠ id) → handleMarkReceiptPaid receipts id = receipts) := by
  refine ⟨?_, ?_, ?_, ?_⟩
  · simp [handleMarkReceiptPaid]
  · intro i
    simp [handleMarkReceiptPaid, List.get?_map]
  · intro r
    exact ⟨rfl, rfl, rfl, rfl, rfl, rfl, rfl, rfl, rfl⟩
  · intro hnone
    unfold handleMarkReceiptPaid
    have hcong : ∀ r ∈ receipts, (if r.id = id then setPaid r else r) = (fun r => r) r :=
      fun r hr => if_neg (hnone r hr)
    have hmap := List.map_congr_left hcong
    simpa using hmap

/-- C10 witness on a concrete two-receipt list. -/
theorem C10_witness :
    (handleMarkReceiptPaid
        [⟨1, 7, "a", "d", "p", 10, false, 1, []⟩,
         ⟨2, 8, "b", "d", "p", 20, false, 1, []⟩] 3).length = 2 ∧
    (∀ r ∈ [(⟨1, 7, "a", "d", "p", 10, false, 1, []⟩ : WarehouseReceipt),
            ⟨2, 8, "b", "d", "p", 20, false, 1, []⟩], r.id ≠ 3) ∧
    handleMarkReceiptPaid
        [⟨1, 7, "a", "d", "p", 10, false, 1, []⟩,
         ⟨2, 8, "b", "d", "p", 20, false, 1, []⟩] 3
      = [⟨1, 7, "a", "d", "p", 10, false, 1, []⟩,
         ⟨2, 8, "b", "d", "p", 20, false, 1, []⟩] := by
  have h := C10_theorem
    [⟨1, 7, "a", "d", "p", 10, false, 1, []⟩,
     ⟨2, 8, "b", "d", "p", 20, false, 1, []⟩] 3
  have hne : ∀ r ∈ [(⟨1, 7, "a", "d", "p", 10, false, 1, []⟩ : WarehouseReceipt),
      ⟨2, 8, "b", "d", "p", 20, false, 1, []⟩], r.id ≠ 3 := by decide
  exact ⟨h.1, hne, h.2.2.2 hne⟩

/-! ### Part 4: local-time model of JavaScript `Date`

An instant is an integer count of seconds of local time since the Unix epoch.
Integer division `/` on `Int` rounds toward negative infinity for the positive
divisors used here, matching the day/field decomposition of civil time. -/

/-- Civil (proleptic Gregorian) date of an epoch day count: `(year, month,
day)` with 1-based month and day.  Standard era-based conversion. -/
def civilFromDays (z0 : Int) : Int × Int × Int :=
  let z := z0 + 719468
  let era := z / 146097
  let doe := z - era * 146097
  let yoe := (doe - doe / 1460 + doe / 36524 - doe / 146096) / 365
  let y := yoe + era * 400
  let doy := doe - (365 * yoe + yoe / 4 - yoe / 100)
  let mp := (5 * doy + 2) / 153
  let d := doy - (153 * mp + 2) / 5 + 1
  let m := mp + (if mp < 10 then 3 else -9)
  (if m ≤ 2 then y + 1 else y, m, d)

/-- Epoch day count of a civil date (1-based month and day, both may be taken
out of range and are then interpreted linearly). -/
def daysFromCivil (y m d : Int) : Int :=
  let y1 := if m ≤ 2 then y - 1 else y
  let era := y1 / 400
  let yoe := y1 - era * 400
  let doy := (153 * (m + (if m > 2 then -3 else 9)) + 2) / 5 + d - 1
  let doe := yoe * 365 + yoe / 4 - yoe / 100 + doy
  era * 146097 + doe - 719468

theorem yoe_correct (a : Int) (h0 : 0 ≤ a) (h1 : a ≤ 146096) :
    0 ≤ (a - a / 1460 + a / 36524 - a / 146096) / 365 ∧
    (a - a / 1460 + a / 36524 - a / 146096) / 365 ≤ 399 ∧
    0 ≤ a - (365 * ((a - a / 1460 + a / 36524 - a / 146096) / 365) +
        ((a - a / 1460 + a / 36524 - a / 146096) / 365) / 4 -
        ((a - a / 1460 + a / 36524 - a / 146096) / 365) / 100) ∧
    a - (365 * ((a - a / 1460 + a / 36524 - a / 146096) / 365) +
        ((a - a / 1460 + a / 36524 - a / 146096) / 365) / 4 -
        ((a - a / 1460 + a / 36524 - a / 146096) / 365) / 100) ≤ 365 := by
  obtain ⟨e, he, he0, he1⟩ : ∃ e : Int, a / 1460 = e ∧ 0 ≤ e ∧ e ≤ 100 :=
    ⟨a / 1460, rfl, by omega, by omega⟩
  rw [he]
  interval_cases e <;> (try omega) <;>
    (obtain ⟨g, hg, hg0, hg1⟩ : ∃ g : Int, a / 36524 = g ∧ 0 ≤ g ∧ g ≤ 4 :=
      ⟨a / 36524, rfl, by omega, by omega⟩;
     rw [hg]; interval_cases g <;> omega)

theorem daysFromCivil_assemble (z era doe yoe doy mp d m : Int)
    (hzed : z + 719468 = era * 146097 + doe)
    (hdoe0 : 0 ≤ doe) (hdoe1 : doe ≤ 146096)
    (hyoe0 : 0 ≤ yoe) (hyoe1 : yoe ≤ 399)
    (hdoy : doy = doe - (365 * yoe + yoe / 4 - yoe / 100))
    (hdoy0 : 0 ≤ doy) (hdoy1 : doy ≤ 365)
    (hmp : mp = (5 * doy + 2) / 153)
    (hd : d = doy - (153 * mp + 2) / 5 + 1)
    (hm : m = mp + (if mp < 10 then 3 else -9)) :
    daysFromCivil (if m ≤ 2 then yoe + era * 400 + 1 else yoe + era * 400) m d = z := by
  have hmp0 : 0 ≤ mp := by omega
  have hmp11 : mp ≤ 11 := by omega
  have e1a : (yoe + era * 400) / 400 = era := by omega
  have e1b : (yoe + era * 400 + 1 - 1) / 400 = era := by omega
  rcases lt_or_le mp 10 with h10 | h10
  · rw [if_pos h10] at hm
    subst hm
    simp only [daysFromCivil, if_neg (by omega : ¬ (mp + 3 ≤ 2)),
      if_pos (by omega : mp + 3 > 2)]
    rw [e1a]
    simp only [show yoe + era * 400 - era * 400 = yoe from by ring,
      show mp + 3 + -3 = mp from by ring]
    omega
  · rw [if_neg (by omega : ¬ mp < 10)] at hm
    subst hm
    simp only [daysFromCivil, if_pos (by omega : mp + -9 ≤ 2),
      if_neg (by omega : ¬ (mp + -9 > 2))]
    rw [e1b]
    simp only [show yoe + era * 400 + 1 - 1 - era * 400 = yoe from by ring,
      show mp + -9 + 9 = mp from by ring]
    omega

/-- The civil conversion is a section of the epoch-day conversion. -/
theorem daysFromCivil_civilFromDays (z : Int) :
    daysFromCivil (civilFromDays z).1 (civilFromDays z).2.1 (civilFromDays z).2.2 = z := by
  have h := yoe_correct (z + 719468 - (z + 719468) / 146097 * 146097)
    (by omega) (by omega)
  simp only [civilFromDays]
  exact daysFromCivil_assemble z ((z + 719468) / 146097)
    (z + 719468 - (z + 719468) / 146097 * 146097) _ _ _ _ _
    (by omega) (by omega) (by omega) h.1 h.2.1 rfl (by omega) (by omega) rfl rfl rfl

/-- The civil conversion produces a month in `[1, 12]` and a day in `[1, 31]`. -/
theorem civilFromDays_range (z : Int) :
    1 ≤ (civilFromDays z).2.1 ∧ (civilFromDays z).2.1 ≤ 12 ∧
    1 ≤ (civilFromDays z).2.2 ∧ (civilFromDays z).2.2 ≤ 31 := by
  have h := yoe_correct (z + 719468 - (z + 719468) / 146097 * 146097)
    (by omega) (by omega)
  simp only [civilFromDays]
  split_ifs <;> omega

/-- `daysFromCivil` is linear in the day argument. -/
theorem daysFromCivil_day_shift (y m d k : Int) :
    daysFromCivil y m (d + k) = daysFromCivil y m d + k := by
  simp only [daysFromCivil]
  split_ifs <;> omega

/-- The epoch day holding an instant (floor of `t / 86400`). -/
def epochDay (t : Int) : Int := t / 86400

/-- The second of the day holding an instant. -/
def secOfDay (t : Int) : Int := t % 86400

/-- The epoch day denoted by a JavaScript `new Date(y, m, d)` triple: the
month argument is 0-based and, like the day, may lie outside its range, in
which case it rolls over linearly. -/
def jsDay (y m d : Int) : Int :=
  daysFromCivil (y + m / 12) (m % 12 + 1) 1 + (d - 1)

/-- `new Date(y, m, d, h, mi, s)` as an instant. -/
def mkDate (y m d h mi s : Int) : Int :=
  jsDay y m d * 86400 + h * 3600 + mi * 60 + s

/-- `Date.prototype.getFullYear` under the local-time model. -/
def getFullYear (t : Int) : Int := (civilFromDays (epochDay t)).1

/-- `Date.prototype.getMonth` (0-based month). -/
def getMonth (t : Int) : Int := (civilFromDays (epochDay t)).2.1 - 1

/-- `Date.prototype.getDate` (day of month). -/
def getDate (t : Int) : Int := (civilFromDays (epochDay t)).2.2

/-- `Date.prototype.getDay`: 0 = Sunday, …, 6 = Saturday; epoch day 0
(1970-01-01) was a Thursday. -/
def getDay (t : Int) : Int := (epochDay t + 4) % 7

/-- `setHours(h)` with a single argument: minutes and seconds are kept. -/
def setHours1 (t h : Int) : Int :=
  epochDay t * 86400 + h * 3600 + secOfDay t % 3600

/-- `setHours(h, mi, s)` with three arguments. -/
def setHours3 (t h mi s : Int) : Int :=
  epochDay t * 86400 + h * 3600 + mi * 60 + s

/-- `setDate(n)`: replaces the day of month (out-of-range values roll over),
keeping the time of day. -/
def setDate (t n : Int) : Int :=
  jsDay (getFullYear t) (getMonth t) n * 86400 + secOfDay t

/-- `setMonth(m)`: replaces the 0-based month (out-of-range values roll
over), keeping day of month and time of day. -/
def setMonth (t m : Int) : Int :=
  jsDay (getFullYear t) m (getDate t) * 86400 + secOfDay t

theorem jsDay_eq (t n : Int) :
    jsDay (getFullYear t) (getMonth t) n = t / 86400 + (n - getDate t) := by
  unfold jsDay getFullYear getMonth getDate epochDay
  have h1 := civilFromDays_range (t / 86400)
  have h2 := daysFromCivil_civilFromDays (t / 86400)
  have e1 : ((civilFromDays (t / 86400)).2.1 - 1) / 12 = 0 := by omega
  have e2 : ((civilFromDays (t / 86400)).2.1 - 1) % 12 + 1
      = (civilFromDays (t / 86400)).2.1 := by omega
  rw [e1, e2]
  simp only [add_zero]
  have e3 : (civilFromDays (t / 86400)).2.2
      = 1 + ((civilFromDays (t / 86400)).2.2 - 1) := by ring
  rw [e3, daysFromCivil_day_shift] at h2
  omega

theorem mkDate_civil (t h mi s : Int) :
    mkDate (getFullYear t) (getMonth t) (getDate t) h mi s
      = (t / 86400) * 86400 + h * 3600 + mi * 60 + s := by
  unfold mkDate
  rw [jsDay_eq]
  ring

theorem setDate_add (t k : Int) : setDate t (getDate t + k) = t + k * 86400 := by
  unfold setDate secOfDay
  rw [jsDay_eq]
  omega

theorem setDate_sub (t k : Int) : setDate t (getDate t - k) = t - k * 86400 := by
  unfold setDate secOfDay
  rw [jsDay_eq]
  omega

/-- The dashboard's period tokens (`type Period` in `Dashboard.tsx`). -/
inductive Period where
  | today
  | tomorrow
  | week
  | last_week
  | month
  | last_month
  | all
deriving DecidableEq, Repr

/-- Chart bucket granularity (`groupBy` in `getDateRanges`). -/
inductive GroupBy where
  | hour
  | day
deriving DecidableEq, Repr

/-- The record returned by `getDateRanges` (`end` is a Lean keyword and is
called `stop` here). -/
structure DateRanges where
  start : Int
  stop : Int
  prevStart : Int
  prevEnd : Int
  groupBy : GroupBy
deriving DecidableEq, Repr

/-- `getDateRanges` of `Dashboard.tsx`, with `new Date()` made explicit as the
parameter `now`.  `todayStart`/`todayEnd` are
`new Date(getFullYear, getMonth, getDate[, 23, 59, 59])`; each `case` mirrors
the `switch`; `groupBy` defaults to `day` and is set to `hour` only by the
`today` and `tomorrow` cases. -/
def getDateRanges (p : Period) (now : Int) : DateRanges :=
  let todayStart := mkDate (getFullYear now) (getMonth now) (getDate now) 0 0 0
  let todayEnd := mkDate (getFullYear now) (getMonth now) (getDate now) 23 59 59
  match p with
  | Period.today =>
      ⟨todayStart, todayEnd,
        setDate todayStart (getDate todayStart - 1),
        setDate todayEnd (getDate todayEnd - 1), GroupBy.hour⟩
  | Period.tomorrow =>
      ⟨setDate todayStart (getDate todayStart + 1),
        setDate todayEnd (getDate todayEnd + 1),
        todayStart, todayEnd, GroupBy.hour⟩
  | Period.week =>
      let day := if getDay todayStart = 0 then 7 else getDay todayStart
      let start := if day ≠ 1 then setHours1 todayStart (-24 * (day - 1)) else todayStart
      let stop := setHours3 (setDate start (getDate start + 6)) 23 59 59
      ⟨start, stop,
        setDate start (getDate start - 7),
        setDate stop (getDate stop - 7), GroupBy.day⟩
  | Period.last_week =>
      let d := if getDay todayStart = 0 then 7 else getDay todayStart
      let s0 := if d ≠ 1 then setHours1 todayStart (-24 * (d - 1)) else todayStart
      let start := setDate s0 (getDate s0 - 7)
      let stop := setHours3 (setDate start (getDate start + 6)) 23 59 59
      ⟨start, stop,
        setDate start (getDate start - 7),
        setDate stop (getDate stop - 7), GroupBy.day⟩
  | Period.month =>
      let start := setDate todayStart 1
      let stop := mkDate (getFullYear start) (getMonth start + 1) 0 23 59 59
      let prevStart := setMonth start (getMonth start - 1)
      let prevEnd := mkDate (getFullYear prevStart) (getMonth prevStart + 1) 0 23 59 59
      ⟨start, stop, prevStart, prevEnd, GroupBy.day⟩
  | Period.last_month =>
      let s0 := setMonth todayStart (getMonth todayStart - 1)
      let start := setDate s0 1
      let stop := mkDate (getFullYear start) (getMonth start + 1) 0 23 59 59
      let prevStart := setMonth start (getMonth start - 1)
      let prevEnd := mkDate (getFullYear prevStart) (getMonth prevStart + 1) 0 23 59 59
      ⟨start, stop, prevStart, prevEnd, GroupBy.day⟩
  | Period.all =>
      ⟨mkDate 2023 0 1 0 0 0, todayEnd, mkDate 2020 0 1 0 0 0, todayEnd, GroupBy.day⟩

/-- The `startOfWeek` computation of the `filteredReceipts` memo in
`SupplierSettlements.tsx` (same Monday-start convention as the dashboard). -/
def startOfWeekSettlements (now : Int) : Int :=
  let startOfDay := mkDate (getFullYear now) (getMonth now) (getDate now) 0 0 0
  let day := if getDay startOfDay = 0 then 7 else getDay startOfDay
  if day ≠ 1 then setHours1 startOfDay (-24 * (day - 1)) else startOfDay

/-- The `getDay() || 7` Monday-rewind used by both components, evaluated on a
day-start instant: it lands on the Monday `(t / 86400 + 3) % 7` days back. -/
theorem weekRewind_eq (t : Int) (ht : t % 86400 = 0) :
    (if (if getDay t = 0 then 7 else getDay t) ≠ 1
      then setHours1 t (-24 * ((if getDay t = 0 then 7 else getDay t) - 1)) else t)
    = t - 86400 * ((t / 86400 + 3) % 7) := by
  unfold getDay setHours1 epochDay secOfDay
  split_ifs <;> omega

/-- C6: for the `today` period and every `now`, the current range is exactly
the calendar day containing `now` (from its first to its last second) and the
previous range is exactly the immediately preceding calendar day. -/
theorem C6_theorem (now : Int) :
    (getDateRanges Period.today now).start = 86400 * (now / 86400) ∧
    (getDateRanges Period.today now).stop = (getDateRanges Period.today now).start + 86399 ∧
    (getDateRanges Period.today now).start ≤ now ∧
    now < (getDateRanges Period.today now).start + 86400 ∧
    (getDateRanges Period.today now).prevStart
        = (getDateRanges Period.today now).start - 86400 ∧
    (getDateRanges Period.today now).prevEnd
        = (getDateRanges Period.today now).start - 1 := by
  have h0 := mkDate_civil now 0 0 0
  have h1 := mkDate_civil now 23 59 59
  simp only [getDateRanges]
  rw [setDate_sub, setDate_sub, h0, h1]
  omega

/-- C7: for every `now` — Sundays included — the `week` range of the dashboard
starts on the Monday of the week containing `now` (a day boundary whose
JavaScript weekday is 1, at most 6 days before the current day), `last_week`
starts exactly seven days earlier, and the settlements filter computes the
same Monday week start. -/
theorem C7_theorem (now : Int) :
    (getDateRanges Period.week now).start % 86400 = 0 ∧
    ((getDateRanges Period.week now).start / 86400 + 4) % 7 = 1 ∧
    (getDateRanges Period.week now).start ≤ 86400 * (now / 86400) ∧
    86400 * (now / 86400) < (getDateRanges Period.week now).start + 7 * 86400 ∧
    (getDateRanges Period.last_week now).start
        = (getDateRanges Period.week now).start - 7 * 86400 ∧
    startOfWeekSettlements now = (getDateRanges Period.week now).start := by
  have h0 := mkDate_civil now 0 0 0
  simp only [getDateRanges, startOfWeekSettlements]
  rw [h0, weekRewind_eq _ (by omega), setDate_sub]
  rw [show now / 86400 * 86400 + 0 * 3600 + 0 * 60 + 0 = 86400 * (now / 86400) from by ring]
  rw [show 86400 * (now / 86400) / 86400 = now / 86400 from by omega]
  obtain ⟨w, hw, hw0, hw6⟩ : ∃ w : Int, (now / 86400 + 3) % 7 = w ∧ 0 ≤ w ∧ w ≤ 6 :=
    ⟨(now / 86400 + 3) % 7, rfl, by omega, by omega⟩
  rw [hw]
  rw [show 86400 * (now / 86400) - 86400 * w = 86400 * (now / 86400 - w) from by ring]
  rw [show 86400 * (now / 86400 - w) / 86400 = now / 86400 - w from by omega]
  rw [show 86400 * (now / 86400 - w) % 86400 = 0 from by omega]
  exact ⟨rfl, by omega, by omega, by omega, rfl, trivial⟩

/-- C5 counterexample: for the `month` period at local time 2024-03-15 12:00,
the current range is March 2024 (31 days) while the previous range is
February 2024 (29 days): the two ranges do not have equal length. -/
theorem C5_counterexample :
    (getDateRanges Period.month (mkDate 2024 2 15 12 0 0)).stop
        - (getDateRanges Period.month (mkDate 2024 2 15 12 0 0)).start
      = 31 * 86400 - 1 ∧
    (getDateRanges Period.month (mkDate 2024 2 15 12 0 0)).prevEnd
        - (getDateRanges Period.month (mkDate 2024 2 15 12 0 0)).prevStart
      = 29 * 86400 - 1 ∧
    ¬ ((getDateRanges Period.month (mkDate 2024 2 15 12 0 0)).stop
        - (getDateRanges Period.month (mkDate 2024 2 15 12 0 0)).start
      = (getDateRanges Period.month (mkDate 2024 2 15 12 0 0)).prevEnd
        - (getDateRanges Period.month (mkDate 2024 2 15 12 0 0)).prevStart) := by
  refine ⟨by decide, by decide, by decide⟩

/-- C5 (amended): for every period token the bucket granularity is hourly
exactly for the single-day periods (`today`, `tomorrow`) and daily for all
others; and for the periods `today`, `tomorrow`, `week` and `last_week` the
previous range has the same length as the current range and ends exactly one
second before it begins. -/
theorem C5_theorem (now : Int) (p : Period) :
    ((getDateRanges p now).groupBy = GroupBy.hour
        ↔ p = Period.today ∨ p = Period.tomorrow) ∧
    (p = Period.today ∨ p = Period.tomorrow ∨ p = Period.week ∨ p = Period.last_week →
      (getDateRanges p now).stop - (getDateRanges p now).start
          = (getDateRanges p now).prevEnd - (getDateRanges p now).prevStart ∧
      (getDateRanges p now).prevEnd + 1 = (getDateRanges p now).start) := by
  have h0 := mkDate_civil now 0 0 0
  have h1 := mkDate_civil now 23 59 59
  cases p with
  | today =>
      refine ⟨by simp only [getDateRanges]; simp, fun _ => ?_⟩
      simp only [getDateRanges]
      rw [setDate_sub, setDate_sub, h0, h1]
      omega
  | tomorrow =>
      refine ⟨by simp only [getDateRanges]; simp, fun _ => ?_⟩
      simp only [getDateRanges]
      rw [setDate_add, setDate_add, h0, h1]
      omega
  | week =>
      refine ⟨by simp only [getDateRanges]; simp, fun _ => ?_⟩
      simp only [getDateRanges]
      rw [h0, weekRewind_eq _ (by omega), setDate_add]
      simp only [setHours3, epochDay]
      rw [setDate_sub, setDate_sub]
      rw [show now / 86400 * 86400 + 0 * 3600 + 0 * 60 + 0
          = 86400 * (now / 86400) from by ring]
      rw [show 86400 * (now / 86400) / 86400 = now / 86400 from by omega]
      obtain ⟨w, hw, hw0, hw6⟩ : ∃ w : Int, (now / 86400 + 3) % 7 = w ∧ 0 ≤ w ∧ w ≤ 6 :=
        ⟨(now / 86400 + 3) % 7, rfl, by omega, by omega⟩
      rw [hw]
      rw [show 86400 * (now / 86400) - 86400 * w + 6 * 86400
          = 86400 * (now / 86400 - w + 6) from by ring]
      rw [show 86400 * (now / 86400 - w + 6) / 86400
          = now / 86400 - w + 6 from by omega]
      exact ⟨by omega, by omega⟩
  | last_week =>
      refine ⟨by simp only [getDateRanges]; simp, fun _ => ?_⟩
      simp only [getDateRanges]
      rw [h0, weekRewind_eq _ (by omega), setDate_sub, setDate_add]
      simp only [setHours3, epochDay]
      rw [setDate_sub, setDate_sub]
      rw [show now / 86400 * 86400 + 0 * 3600 + 0 * 60 + 0
          = 86400 * (now / 86400) from by ring]
      rw [show 86400 * (now / 86400) / 86400 = now / 86400 from by omega]
      obtain ⟨w, hw, hw0, hw6⟩ : ∃ w : Int, (now / 86400 + 3) % 7 = w ∧ 0 ≤ w ∧ w ≤ 6 :=
        ⟨(now / 86400 + 3) % 7, rfl, by omega, by omega⟩
      rw [hw]
      rw [show 86400 * (now / 86400) - 86400 * w - 7 * 86400 + 6 * 86400
          = 86400 * (now / 86400 - w - 1) from by ring]
      rw [show 86400 * (now / 86400 - w - 1) / 86400
          = now / 86400 - w - 1 from by omega]
      exact ⟨by omega, by omega⟩
  | month =>
      refine ⟨by simp only [getDateRanges]; simp, ?_⟩
      rintro (h | h | h | h) <;> exact absurd h (by decide)
  | last_month =>
      refine ⟨by simp only [getDateRanges]; simp, ?_⟩
      rintro (h | h | h | h) <;> exact absurd h (by decide)
  | all =>
      refine ⟨by simp only [getDateRanges]; simp, ?_⟩
      rintro (h | h | h | h) <;> exact absurd h (by decide)

/-- C5 witness: the `week` period at a concrete instant. -/
theorem C5_witness :
    (getDateRanges Period.week 1700000000).stop
        - (getDateRanges Period.week 1700000000).start
      = (getDateRanges Period.week 1700000000).prevEnd
        - (getDateRanges Period.week 1700000000).prevStart ∧
    (getDateRanges Period.week 1700000000).prevEnd + 1
      = (getDateRanges Period.week 1700000000).start :=
  (C5_theorem 1700000000 Period.week).2 (Or.inr (Or.inr (Or.inl rfl)))

end PetShop
